import Mathlib

/-!
Shallow embedding of the AgentFlow orchestration core (schemas, tool
dispatcher, fs_write sandbox checks, executor step loop, topological sort,
session routing and resume), together with theorems settling the frozen
claims about it.  Python strings are modelled as `String`, with the Python
operations `lower`, `strip`, substring membership and `startswith` realised
on the underlying character list (`String.data`).
-/

namespace AgentFlow

open scoped List

/-! ## Python string primitives -/

/-- Whitespace characters removed by Python `str.strip()`. -/
def isPySpace (c : Char) : Bool :=
  c = ' ' || c = '\t' || c = '\n' || c = '\r' || c = '\x0b' || c = '\x0c'

/-- Python `str.lower()` on a character list (ASCII case folding;
CJK characters are fixed points, as in Python for these inputs). -/
def pyLower (l : List Char) : List Char := l.map Char.toLower

/-- Python `str.strip()` on a character list. -/
def pyStrip (l : List Char) : List Char :=
  (l.dropWhile isPySpace).rdropWhile isPySpace

/-- Python `sub in s` substring test. -/
def pyContains (s sub : String) : Bool := decide (sub.data <:+: s.data)

/-- Python `s.lower()` as a Lean string. -/
def pyLowerStr (s : String) : String := ⟨pyLower s.data⟩

/-- Python `s.lower().strip()` as a Lean string. -/
def pyLowerStrip (s : String) : String := ⟨pyStrip (pyLower s.data)⟩

/-- Python `s.strip()` as a Lean string. -/
def pyStripStr (s : String) : String := ⟨pyStrip s.data⟩

/-- POSIX `Path(s).is_absolute()` / `s.startswith("/")`. -/
def pyIsAbsolute (s : String) : Bool :=
  match s.data with
  | [] => false
  | c :: _ => c = '/'

/-- Replace every occurrence of the nonempty needle `c0 :: nrest` in the
subject list, left to right, as Python `str.replace` does. -/
def replaceAllGo (c0 : Char) (nrest repl : List Char) : List Char → List Char
  | [] => []
  | c :: rest =>
    if (c0 :: nrest) <+: (c :: rest) then
      repl ++ replaceAllGo c0 nrest repl (rest.drop nrest.length)
    else
      c :: replaceAllGo c0 nrest repl rest
termination_by l => l.length
decreasing_by
  · simp only [List.length_cons, List.length_drop]
    omega
  · simp

/-- Python `str.replace` (an empty needle never occurs in the source:
placeholders are always of the form `\x7b\x7bkey\x7d\x7d`). -/
def replaceAll (needle repl subject : List Char) : List Char :=
  match needle with
  | [] => subject
  | c0 :: nrest => replaceAllGo c0 nrest repl subject

/-! ## Values (`Any` in the Python source, restricted to the shapes the
core actually passes around) -/

/-- Error codes of `src/schemas/tool_result.py` (`ErrorCode`).  The source
enum has exactly these five members. -/
inductive ErrorCode where
  | NETWORK
  | NOT_FOUND
  | INVALID_INPUT
  | RATE_LIMIT
  | INTERNAL
deriving DecidableEq, Repr

/-- The string value of each `ErrorCode` member, as in the source enum. -/
def ErrorCode.value : ErrorCode → String
  | .NETWORK => "NETWORK"
  | .NOT_FOUND => "NOT_FOUND"
  | .INVALID_INPUT => "INVALID_INPUT"
  | .RATE_LIMIT => "RATE_LIMIT"
  | .INTERNAL => "INTERNAL"

/-! JSON-like Python values (plan inputs, tool args, tool data payloads).
`PyFields` is the entry list of a dict and `PyList` the item list of a
list, spelled out so that equality (Python `==`, used by `list.remove`)
is decidable. -/
mutual

inductive PyValue where
  | str (s : String)
  | int (n : Int)
  | bool (b : Bool)
  | pyNone
  | dict (entries : PyFields)
  | list (items : PyList)
deriving DecidableEq

inductive PyFields where
  | nil
  | cons (k : String) (v : PyValue) (rest : PyFields)
deriving DecidableEq

inductive PyList where
  | nil
  | cons (v : PyValue) (rest : PyList)
deriving DecidableEq

end

/-- Dict lookup (`d.get(k)` / `k in d` with its value). -/
def PyFields.lookup : PyFields → String → Option PyValue
  | .nil, _ => none
  | .cons k v rest, key => if k = key then some v else rest.lookup key

/-- Whether a dict has no entries (Python falsiness of a dict). -/
def PyFields.isEmpty : PyFields → Bool
  | .nil => true
  | .cons _ _ _ => false

/-- Whether a list has no items (Python falsiness of a list). -/
def PyList.isEmpty : PyList → Bool
  | .nil => true
  | .cons _ _ => false

/-- Build dict entries from an association list. -/
def PyFields.ofList : List (String × PyValue) → PyFields
  | [] => .nil
  | (k, v) :: rest => .cons k v (PyFields.ofList rest)

/-- Build list items from a Lean list. -/
def PyList.ofList : List PyValue → PyList
  | [] => .nil
  | v :: rest => .cons v (PyList.ofList rest)

/-- `ToolError` of `src/schemas/tool_result.py`. -/
structure ToolErr where
  code : ErrorCode
  message : String
  retryable : Bool := true
deriving DecidableEq

/-- `ToolMeta` of `src/schemas/tool_result.py`. -/
structure PyMeta where
  source : String
  latency_ms : Nat
  params : List (String × PyValue)
deriving DecidableEq

/-- `StandardToolResult` of `src/schemas/tool_result.py` (the record as
stored; constructibility is the separate `mkStandardToolResult`). -/
structure StandardToolResult where
  ok : Bool
  data : Option PyValue := none
  error : Option ToolErr := none
  meta : PyMeta
deriving DecidableEq

/-- pydantic's type validation of the `data` field
(`Optional[Dict[str, Any]]`): absent, or a dict; any other value raises a
`ValidationError` in `super().__init__` before the custom checks run. -/
def dataFieldValid : Option PyValue → Bool
  | none => true
  | some (.dict _) => true
  | some _ => false

/-- Construction of a `StandardToolResult`: `super().__init__` first runs
pydantic's field validation (here: the `data` type check), then the
custom `__init__` checks raise when `ok` and `error` is set, or when
`not ok` and `error` is missing.  The presence of `data` is never tied to
`ok`. -/
def mkStandardToolResult (ok : Bool) (data : Option PyValue)
    (error : Option ToolErr) (meta : PyMeta) : Except String StandardToolResult :=
  if ¬ dataFieldValid data then
    .error "ValidationError: data is not a valid dict"
  else if ok ∧ error.isSome then
    .error "ok=True 时不能有error"
  else if ¬ ok ∧ error.isNone then
    .error "ok=False 时必须有error"
  else
    .ok { ok := ok, data := data, error := error, meta := meta }

/-- `StandardToolResult.success` classmethod. -/
def StandardToolResult.success (data : PyValue) (meta : PyMeta) :
    Except String StandardToolResult :=
  mkStandardToolResult true (some data) none meta

/-- `StandardToolResult.failure` classmethod. -/
def StandardToolResult.failure (error : ToolErr) (meta : PyMeta) :
    Except String StandardToolResult :=
  mkStandardToolResult false none (some error) meta

/-- A Python value as seen by the executor and the artifact store: either a
plain value or a `StandardToolResult` instance (`isinstance` distinguishes
them in the source). -/
inductive PyAny where
  | v (x : PyValue)
  | tres (r : StandardToolResult)
deriving DecidableEq

/-- Python truthiness of the values the artifact store can hold
(`if state.get_artifact("ask_user_pending"):`). -/
def truthy : Option PyAny → Bool
  | none => false
  | some (.v .pyNone) => false
  | some (.v (.str s)) => s ≠ ""
  | some (.v (.int n)) => n ≠ 0
  | some (.v (.bool b)) => b
  | some (.v (.dict es)) => ¬ es.isEmpty
  | some (.v (.list xs)) => ¬ PyList.isEmpty xs
  | some (.tres _) => true

/-! ## `src/tools/tool_fs_write.py` -/

/-- The special path intents of `_normalize_path` that map to the desktop
directory. -/
def specialIntents : List (List Char) :=
  ["写到桌面".data, "write to desktop".data, "desktop".data]

/-- `path.lower().strip() in ["写到桌面", "write to desktop", "desktop"]`. -/
def isSpecialIntent (path : String) : Bool :=
  specialIntents.contains (pyStrip (pyLower path.data))

/-- A path accepted by `_normalize_path`: either the generated desktop
file, or a workspace-relative path that passed every check. -/
inductive NormalizedPath where
  | desktop (fmt : String)
  | workspaceRel (path fmt : String)

/-- `ToolFSWrite._normalize_path`.  The filesystem-dependent containment
test `resolved_path.relative_to(workspace/desktop)` is abstracted as the
`sandboxOk` parameter; every string check is modelled exactly. -/
def normalizePath (sandboxOk : String → Bool) (path fmt : String) :
    Except String NormalizedPath :=
  if isSpecialIntent path then
    .ok (.desktop fmt)
  else if pyIsAbsolute path then
    .error "不允许使用绝对路径"
  else if pyContains path ".." || pyIsAbsolute path then
    .error "路径包含非法字符或尝试路径穿越"
  else if sandboxOk path then
    .ok (.workspaceRel path fmt)
  else
    .error ("路径必须在工作目录或桌面目录下: " ++ path)

/-- Outcome of `ToolFSWrite.run`: either validation failed and a failure
envelope is returned without touching the filesystem, or validation passed
and the write (`_write_file`) is attempted at the normalized path. -/
inductive FsWriteOutcome where
  | rejected (result : StandardToolResult)
  | proceeds (p : NormalizedPath)

/-- The meta object `run` attaches to a failure envelope (latency is
wall-clock and modelled as 0). -/
def fsWriteFailMeta (path fmt : String) (mkdirs : Bool) : PyMeta :=
  { source := "fs_write", latency_ms := 0,
    params := [("path", .str path), ("format", .str fmt), ("mkdirs", .bool mkdirs)] }

/-- The `ok=false` envelope `run` builds for a rejected path. -/
def fsRejectEnvelope (msg path fmt : String) (mkdirs : Bool) : StandardToolResult :=
  { ok := false, data := none,
    error := some { code := .INVALID_INPUT, message := msg, retryable := false },
    meta := fsWriteFailMeta path fmt mkdirs }

/-- `ToolFSWrite.run` up to the filesystem write: a `ValueError` from
`_normalize_path` is converted to an `ok=false` envelope with code
`INVALID_INPUT`, `retryable=false`; otherwise the write is attempted. -/
def fsWriteRun (sandboxOk : String → Bool) (path _content : String)
    (fmt : String := "md") (mkdirs : Bool := false) : FsWriteOutcome :=
  match normalizePath sandboxOk path fmt with
  | .error msg => .rejected (fsRejectEnvelope msg path fmt mkdirs)
  | .ok p => .proceeds p

/-! ## `src/tool_registry.py` — `ToolExecutor` (the effective dispatcher) -/

/-- Observable behaviour of one `tool.run(**kwargs)` call: it returns a
value, raises, or exceeds the wall-clock timeout. -/
inductive RunBehavior where
  | returns (v : PyAny)
  | raises (msg : String)
  | timesOut

/-- A registered tool as the dispatcher sees it. -/
structure MTool where
  name : String
  run : List (String × PyValue) → RunBehavior

/-- `ToolExecutor._get_tool_timeout` (seconds). -/
def getToolTimeout (name : String) : Nat :=
  if name = "weather_get" then 15
  else if name = "time_now" then 5
  else if name = "file_read" then 10
  else if name = "fs_write" then 10
  else if name = "date_normalize" then 3
  else if name = "calendar_read" then 8
  else if name = "email_list" then 12
  else if name = "math_calc" then 3
  else 10

/-- `ToolExecutor._get_tool_timeout_default`: the plain dict returned in
place of a result when the tool timed out (or raised). -/
def getToolTimeoutDefault (name : String) : PyAny :=
  .v (.dict (PyFields.ofList [("error",
    .str (if name = "weather_get" then "天气查询超时，无法获取天气信息"
          else if name = "time_now" then "时间查询超时，无法获取当前时间"
          else if name = "file_read" then "文件读取超时，无法获取文件内容"
          else if name = "fs_write" then "文件写入超时，无法写入文件"
          else if name = "calendar_read" then "日程查询超时，无法获取日程信息"
          else if name = "email_list" then "邮件查询超时，无法获取邮件列表"
          else if name = "math_calc" then "数学计算超时，无法计算结果"
          else "工具 " ++ name ++ " 执行超时"))]))

/-- `ToolExecutor.execute_tool` (the definition `execute_tool` delegates
to).  An unknown tool name raises `ToolError` (the `Except.error` case); a
found tool's raw return value is passed through unchanged; a timeout or a
tool exception is replaced by the per-tool default dict. -/
def executeToolDispatch (tools : List MTool) (name : String)
    (args : List (String × PyValue)) : Except String PyAny :=
  match tools.find? (fun t => t.name == name) with
  | none => .error ("Tool \x27" ++ name ++ "\x27 error: 工具不存在")
  | some t =>
    match t.run args with
    | .returns v => .ok v
    | .timesOut => .ok (getToolTimeoutDefault name)
    | .raises _ => .ok (getToolTimeoutDefault name)

/-- Whether a dispatcher result is a `StandardToolResult` envelope
(`isinstance(result, StandardToolResult)`). -/
def isToolResultEnvelope : PyAny → Bool
  | .tres _ => true
  | .v _ => false

/-! ## `src/schemas/orchestrator.py` — plan schema and validation -/

/-- `StepType` enum. -/
inductive StepType where
  | tool_call
  | web_search
  | summarize
  | write_file
  | ask_user
deriving DecidableEq, Repr

/-- `PlanStep` model. -/
structure PlanStep where
  id : String
  type : StepType
  tool : Option String := none
  inputs : List (String × PyValue) := []
  depends_on : List String := []
  expect : String := ""
  output_key : String
  retry : Nat := 0
deriving DecidableEq

/-- `PlannerOutput` model (aliased `Plan` in the source). -/
structure PlannerOutput where
  goal : String
  success_criteria : List String
  max_steps : Nat
  steps : List PlanStep
  final_answer_template : String
deriving DecidableEq

/-- The `validate_steps` validator: every `depends_on` entry must be the
id of some step of the plan (the id set is built from all steps). -/
def validateSteps (steps : List PlanStep) : Bool :=
  steps.all fun s => s.depends_on.all fun d => steps.any fun t => t.id == d

/-- The pydantic field constraints of `PlanStep` (`retry` between 0 and 1;
the other fields are type-level). -/
def stepFieldOk (s : PlanStep) : Bool := s.retry ≤ 1

/-- A plan accepted by schema validation: the `Field` constraints of
`PlannerOutput` (`success_criteria` nonempty, `0 < max_steps ≤ 10`,
`steps` nonempty) and of each step, plus `validate_steps`. -/
def planAccepted (p : PlannerOutput) : Bool :=
  ¬ p.success_criteria.isEmpty && 0 < p.max_steps && p.max_steps ≤ 10 &&
    ¬ p.steps.isEmpty && p.steps.all stepFieldOk && validateSteps p.steps

/-- The dependency invariant the specification asserts: every
`depends_on` entry names the id of an earlier step of the list. -/
def depsEarlierFrom (seen : List String) : List PlanStep → Bool
  | [] => true
  | s :: rest =>
    (s.depends_on.all fun d => seen.contains d) && depsEarlierFrom (seen ++ [s.id]) rest

/-- Dependencies only ever point at earlier steps. -/
def depsEarlier (steps : List PlanStep) : Bool := depsEarlierFrom [] steps

/-! ## `src/orchestrator/executor.py` — `_topological_sort` -/

/-- One round's executable set: the remaining steps whose dependencies are
all ids of already sorted steps. -/
def executableSteps (tsorted remaining : List PlanStep) : List PlanStep :=
  remaining.filter fun s =>
    s.depends_on.all fun d => (tsorted.map PlanStep.id).contains d

/-- Python string comparison: lexicographic by code point. -/
def charListLe : List Char → List Char → Bool
  | [], _ => true
  | _ :: _, [] => false
  | c :: cs, d :: ds =>
    if c.toNat < d.toNat then true
    else if d.toNat < c.toNat then false
    else charListLe cs ds

/-- `executable.sort(key=lambda s: s.id)` — Python's stable sort by id,
modelled by the (stable, structurally recursive) insertion sort under the
code-point order. -/
def sortById (steps : List PlanStep) : List PlanStep :=
  steps.insertionSort fun a b => charListLe a.id.data b.id.data = true

theorem foldl_erase_length_le (es l : List PlanStep) :
    (es.foldl List.erase l).length ≤ l.length := by
  induction es generalizing l with
  | nil => simp
  | cons e rest ih =>
    calc ((e :: rest).foldl List.erase l).length
        = (rest.foldl List.erase (l.erase e)).length := by simp [List.foldl_cons]
      _ ≤ (l.erase e).length := ih _
      _ ≤ l.length := (l.erase_sublist e).length_le

/-- The `while remaining:` loop of `_topological_sort`, as a fuel
recursion (`topologicalSort` supplies enough fuel — see
`topoLoop_eq_of_fuel_ge` — so the fuel-exhausted branch is unreachable
from it): move the executable steps (in id order) behind the sorted list
and remove each of them (`list.remove`, i.e. first `==`-equal occurrence)
from `remaining`; when none is executable, append all remaining steps and
stop. -/
def topoLoop : Nat → List PlanStep → List PlanStep → List PlanStep
  | 0, tsorted, remaining => tsorted ++ remaining
  | fuel + 1, tsorted, remaining =>
    if remaining.isEmpty then tsorted
    else
      if (sortById (executableSteps tsorted remaining)).isEmpty then
        tsorted ++ remaining
      else
        topoLoop fuel (tsorted ++ sortById (executableSteps tsorted remaining))
          ((sortById (executableSteps tsorted remaining)).foldl List.erase remaining)

/-- `Executor._topological_sort`. -/
def topologicalSort (steps : List PlanStep) : List PlanStep :=
  topoLoop steps.length [] steps

theorem perm_append_foldl_erase :
    ∀ {es l : List PlanStep}, es <+~ l → (es ++ es.foldl List.erase l).Perm l := by
  intro es
  induction es with
  | nil => intro l _; simp
  | cons e rest ih =>
    intro l h
    have hel : e ∈ l := h.subset (List.mem_cons_self e rest)
    have hperm : l.Perm (e :: l.erase e) := List.perm_cons_erase hel
    have h2 : (e :: rest) <+~ (e :: l.erase e) := hperm.subperm_left.mp h
    have hrest : rest <+~ l.erase e := (List.subperm_cons e).mp h2
    have hfold : (e :: rest).foldl List.erase l = rest.foldl List.erase (l.erase e) := by
      simp [List.foldl_cons]
    calc (e :: rest) ++ (e :: rest).foldl List.erase l
        = e :: (rest ++ rest.foldl List.erase (l.erase e)) := by simp [hfold]
      _ ~ e :: l.erase e := (ih hrest).cons e
      _ ~ l := hperm.symm

theorem foldl_erase_cons_length_lt (e : PlanStep) (rest l : List PlanStep)
    (he : e ∈ l) : ((e :: rest).foldl List.erase l).length < l.length := by
  have h1 : ((e :: rest).foldl List.erase l).length ≤ (l.erase e).length := by
    simpa [List.foldl_cons] using foldl_erase_length_le rest (l.erase e)
  have h2 : (l.erase e).length = l.length - 1 := List.length_erase_of_mem he
  have h3 : 0 < l.length := List.length_pos.mpr (List.ne_nil_of_mem he)
  omega

theorem sortById_subperm (tsorted remaining : List PlanStep) :
    sortById (executableSteps tsorted remaining) <+~ remaining := by
  have h1 : executableSteps tsorted remaining <+~ remaining :=
    (List.filter_sublist _).subperm
  have h2 : (sortById (executableSteps tsorted remaining)).Perm
      (executableSteps tsorted remaining) := List.perm_insertionSort _ _
  exact h2.subperm_right.mpr h1

theorem topoLoop_perm (fuel : Nat) : ∀ (tsorted remaining : List PlanStep),
    (topoLoop fuel tsorted remaining).Perm (tsorted ++ remaining) := by
  induction fuel with
  | zero => intro tsorted remaining; exact List.Perm.refl _
  | succ fuel ih =>
    intro tsorted remaining
    rw [topoLoop]
    split
    · rename_i hr
      have he : remaining = [] := by simpa [List.isEmpty_iff] using hr
      subst he; simp
    · split
      · exact List.Perm.refl _
      · have hsub : sortById (executableSteps tsorted remaining) <+~ remaining :=
          sortById_subperm tsorted remaining
        calc topoLoop fuel (tsorted ++ sortById (executableSteps tsorted remaining))
              ((sortById (executableSteps tsorted remaining)).foldl List.erase remaining)
            ~ (tsorted ++ sortById (executableSteps tsorted remaining)) ++
              (sortById (executableSteps tsorted remaining)).foldl List.erase remaining :=
              ih _ _
          _ = tsorted ++ (sortById (executableSteps tsorted remaining) ++
              (sortById (executableSteps tsorted remaining)).foldl List.erase remaining) := by
              simp [List.append_assoc]
          _ ~ tsorted ++ remaining :=
              (perm_append_foldl_erase hsub).append_left tsorted

/-- The fuel spent by `topologicalSort` is always sufficient: any two fuel
amounts at least `remaining.length` give the same result, so the
fuel-exhausted branch of `topoLoop` is unreachable from `topologicalSort`
and the source's `while` loop terminates with this very result. -/
theorem topoLoop_eq_of_fuel_ge (n : Nat) : ∀ (m : Nat)
    (tsorted remaining : List PlanStep), remaining.length ≤ n →
    remaining.length ≤ m → topoLoop n tsorted remaining = topoLoop m tsorted remaining := by
  induction n with
  | zero =>
    intro m tsorted remaining hn hm
    have he : remaining = [] := by
      cases remaining with
      | nil => rfl
      | cons a t => simp at hn
    subst he
    cases m with
    | zero => rfl
    | succ m => simp [topoLoop]
  | succ n ih =>
    intro m tsorted remaining hn hm
    by_cases hr : remaining.isEmpty
    · have he : remaining = [] := by simpa [List.isEmpty_iff] using hr
      subst he
      cases m with
      | zero => simp [topoLoop]
      | succ m => simp [topoLoop]
    · have hlen : 0 < remaining.length := by
        cases remaining with
        | nil => simp at hr
        | cons a t => simp
      obtain ⟨m', rfl⟩ : ∃ m', m = m' + 1 := by
        cases m with
        | zero => omega
        | succ m' => exact ⟨m', rfl⟩
      rw [topoLoop, topoLoop]
      simp only [hr, Bool.false_eq_true, if_false]
      by_cases hex : (sortById (executableSteps tsorted remaining)).isEmpty
      · simp [hex]
      · simp only [hex, Bool.false_eq_true, if_false]
        have hne : sortById (executableSteps tsorted remaining) ≠ [] := by
          simpa [List.isEmpty_iff] using hex
        obtain ⟨e, rest, hx⟩ := List.exists_cons_of_ne_nil hne
        have hmem : e ∈ remaining :=
          (sortById_subperm tsorted remaining).subset (by simp [hx])
        have hlt : ((sortById (executableSteps tsorted remaining)).foldl
            List.erase remaining).length < remaining.length := by
          rw [hx]; exact foldl_erase_cons_length_lt e rest remaining hmem
        exact ih m' _ _ (by omega) (by omega)

/-! ## `src/orchestrator/executor.py` — execution state and interpolation -/

/-- Association-list lookup for Python dict access. -/
def assocGetV : List (String × PyValue) → String → Option PyValue
  | [], _ => none
  | (k, v) :: rest, key => if k = key then some v else assocGetV rest key

/-- Python dict update `d[key] = v`: overwrite in place, else append. -/
def assocSetV : List (String × PyValue) → String → PyValue → List (String × PyValue)
  | [], key, v => [(key, v)]
  | (k, w) :: rest, key, v =>
    if k = key then (key, v) :: rest else (k, w) :: assocSetV rest key v

/-- Python dict `d.pop(key)` (the removal part). -/
def assocRemoveV : List (String × PyValue) → String → List (String × PyValue)
  | [], _ => []
  | (k, w) :: rest, key => if k = key then rest else (k, w) :: assocRemoveV rest key

/-- Association-list lookup in the artifact store. -/
def assocGet : List (String × PyAny) → String → Option PyAny
  | [], _ => none
  | (k, v) :: rest, key => if k = key then some v else assocGet rest key

/-- Python dict update in the artifact store. -/
def assocSet : List (String × PyAny) → String → PyAny → List (String × PyAny)
  | [], key, v => [(key, v)]
  | (k, w) :: rest, key, v =>
    if k = key then (key, v) :: rest else (k, w) :: assocSet rest key v

/-- `ExecutionState` of `src/orchestrator/executor.py`. -/
structure ExecutionState where
  artifacts : List (String × PyAny) := []
  inputs : List (String × PyAny) := []
  errors : List String := []
  completed_steps : List String := []
deriving DecidableEq

/-- `ExecutionState.set_artifact`. -/
def ExecutionState.setArtifact (st : ExecutionState) (key : String) (v : PyAny) :
    ExecutionState :=
  { st with artifacts := assocSet st.artifacts key v }

/-- `ExecutionState.get_artifact`. -/
def ExecutionState.getArtifact (st : ExecutionState) (key : String) : Option PyAny :=
  assocGet st.artifacts key

/-! Renderings used when a placeholder is substituted
(`json.dumps(..., ensure_ascii=False)` and Python `str()`). -/
mutual

def pyJson : PyValue → String
  | .str s => "\"" ++ s ++ "\""
  | .int n => toString n
  | .bool b => if b then "true" else "false"
  | .pyNone => "null"
  | .dict es => "\x7b" ++ pyJsonFields es ++ "\x7d"
  | .list xs => "[" ++ pyJsonItems xs ++ "]"

def pyJsonFields : PyFields → String
  | .nil => ""
  | .cons k v .nil => "\"" ++ k ++ "\": " ++ pyJson v
  | .cons k v rest => "\"" ++ k ++ "\": " ++ pyJson v ++ ", " ++ pyJsonFields rest

def pyJsonItems : PyList → String
  | .nil => ""
  | .cons v .nil => pyJson v
  | .cons v rest => pyJson v ++ ", " ++ pyJsonItems rest

end

/-- Python `str()` of a value (containers render through the JSON shape). -/
def pyStr : PyValue → String
  | .str s => s
  | .int n => toString n
  | .bool b => if b then "True" else "False"
  | .pyNone => "None"
  | .dict es => pyJson (.dict es)
  | .list xs => pyJson (.list xs)

/-- Python truthiness of a plain value (`if inputs[key]:`). -/
def pyTruthyV : PyValue → Bool
  | .str s => s ≠ ""
  | .int n => n ≠ 0
  | .bool b => b
  | .pyNone => false
  | .dict es => ¬ es.isEmpty
  | .list xs => ¬ PyList.isEmpty xs

/-- The replacement string chosen for artifact `key` holding `av` in
`ExecutionState.interpolate_inputs`. -/
def renderArtifact (key : String) (av : PyAny) : String :=
  match av with
  | .tres r =>
    if r.ok ∧ r.data.isSome then
      match r.data with
      | some (.dict es) =>
        match es.lookup "current_time" with
        | some ct => pyStr ct
        | none =>
          match es.lookup "temperature" with
          | some t => pyStr t ++ "°C"
          | none => pyJson (.dict es)
      | some d => pyStr d
      | none => ""
    else
      "[工具调用失败: " ++
        (match r.error with | some e => e.message | none => "未知错误") ++ "]"
  | .v (.dict es) =>
    if key = "file_path" ∧ (es.lookup "resolved_path").isSome then
      match es.lookup "resolved_path" with
      | some rp => pyStr rp
      | none => ""
    else
      match es.lookup "current_time" with
      | some ct => pyStr ct
      | none => pyJson (.dict es)
  | .v (.list xs) => pyJson (.list xs)
  | .v other => pyStr other

/-- Python `str()` of an arbitrary artifact value. -/
def pyStrAny : PyAny → String
  | .v x => pyStr x
  | .tres _ => "StandardToolResult"

/-- The `\x7b\x7bkey\x7d\x7d` placeholder for an artifact or input key. -/
def placeholderFor (key : String) : List Char :=
  ("\x7b\x7b" ++ key ++ "\x7d\x7d").data

/-- `ExecutionState.interpolate_inputs` applied to one input value: every
artifact placeholder, then every user-input placeholder, is replaced in
string values; other values pass through. -/
def interpolateValue (st : ExecutionState) (v : PyValue) : PyValue :=
  match v with
  | .str s =>
    let afterArtifacts := st.artifacts.foldl
      (fun acc kv => replaceAll (placeholderFor kv.1) (renderArtifact kv.1 kv.2).data acc)
      s.data
    let afterInputs := st.inputs.foldl
      (fun acc kv => replaceAll (placeholderFor kv.1) (pyStrAny kv.2).data acc)
      afterArtifacts
    .str ⟨afterInputs⟩
  | other => other

/-- `ExecutionState.interpolate_inputs`. -/
def interpolateInputs (st : ExecutionState) (inputs : List (String × PyValue)) :
    List (String × PyValue) :=
  inputs.map fun kv => (kv.1, interpolateValue st kv.2)

/-! ## `Executor._map_tool_parameters` and step execution -/

/-- The relative-date tokens recognized before dispatch. -/
def relativeDateKeywords : List String :=
  ["明天", "后天", "今天", "tomorrow", "day after tomorrow", "today"]

/-- The date-normalization pass on one argument value: on a string with a
relative-date token, `date_normalize` is dispatched and a successful
result's `normalized_date` replaces the value; every failure (exception,
non-envelope result, missing key) keeps the value. -/
def normalizeDateValue (tools : List MTool) (v : PyValue) : PyValue :=
  match v with
  | .str s =>
    if relativeDateKeywords.any (fun kw => pyContains (pyLowerStr s) kw) then
      match executeToolDispatch tools "date_normalize"
          [("date", .str s), ("timezone", .str "Europe/Amsterdam")] with
      | .ok (.tres r) =>
        if r.ok then
          match r.data with
          | some (.dict es) =>
            match es.lookup "normalized_date" with
            | some nd => nd
            | none => .str s
          | _ => .str s
        else .str s
      | _ => .str s
    else .str s
  | other => other

/-- `Executor._map_tool_parameters`. -/
def mapToolParameters (tools : List MTool) (toolName : String)
    (inputs : List (String × PyValue)) : List (String × PyValue) :=
  let mapped := inputs.map fun kv => (kv.1, normalizeDateValue tools kv.2)
  if toolName = "weather_get" then
    let m1 :=
      if (assocGetV mapped "city").isSome ∧ (assocGetV mapped "location").isNone then
        match assocGetV mapped "city" with
        | some cv => assocRemoveV mapped "city" ++ [("location", cv)]
        | none => mapped
      else mapped
    match assocGetV m1 "location" with
    | some (.str s) =>
      if pyContains s "Rotterdam" then assocSetV m1 "location" (.str "Rotterdam") else m1
    | _ => m1
  else if toolName = "file_read" then
    if (assocGetV mapped "file_path").isSome ∧ (assocGetV mapped "path").isNone then
      match assocGetV mapped "file_path" with
      | some fv => assocRemoveV mapped "file_path" ++ [("path", fv)]
      | none => mapped
    else mapped
  else if toolName = "time_now" then []
  else if toolName = "math_calc" then
    if (assocGetV mapped "expression").isNone ∧ (assocGetV mapped "query").isSome then
      match assocGetV mapped "query" with
      | some qv => assocRemoveV mapped "query" ++ [("expression", qv)]
      | none => mapped
    else mapped
  else mapped

/-- The weather pre-check of `_execute_tool_call`:
`not isinstance(location_value, str) or not location_value.strip()`. -/
def weatherLocationMissing (mapped : List (String × PyValue)) : Bool :=
  match assocGetV mapped "location" with
  | some (.str s) => (pyStrip s.data).isEmpty
  | some _ => true
  | none => true

/-- The `ask_user_pending` artifact synthesized for a `weather_get` call
without a usable location. -/
def askUserPendingMarker (stepId : String) : PyAny :=
  .v (.dict (PyFields.ofList [
    ("questions", .list (PyList.ofList [.str "请告诉我要查询天气的城市（例如：Rotterdam, NL）"])),
    ("expects", .str "city"),
    ("step_id", .str stepId)]))

/-- The summarization source text of `_execute_summarize`: the first
truthy of `data`/`text`/`content`, otherwise all key/value pairs joined. -/
def summaryTextOf (inputs : List (String × PyValue)) : String :=
  match ["data", "text", "content"].findSome?
      (fun key => match assocGetV inputs key with
        | some v => if pyTruthyV v then some v else none
        | none => none) with
  | some v => pyStr v
  | none =>
    let parts := inputs.map fun kv =>
      kv.1 ++ ": " ++
        (match kv.2 with
         | .dict es => pyJson (.dict es)
         | .list xs => pyJson (.list xs)
         | w => pyStr w)
    if parts.isEmpty then "(无内容)" else String.intercalate "\n" parts

/-- `Executor._execute_step` (with `_execute_tool_call`,
`_execute_summarize`, `_execute_write_file`, `_execute_ask_user` inlined):
returns the updated state and how many tool calls the step charges to the
per-ACT budget; exceptions are the `Except.error` case.  The LLM is the
external `llm` oracle keyed by the user prompt content. -/
def execStep (tools : List MTool) (llm : String → Except String String)
    (step : PlanStep) (st : ExecutionState) : Except String (ExecutionState × Nat) :=
  let interp := interpolateInputs st step.inputs
  match step.type with
  | .tool_call =>
    match step.tool with
    | none => .error ("工具调用步骤 " ++ step.id ++ " 缺少tool字段")
    | some toolName =>
      let mapped := mapToolParameters tools toolName interp
      if toolName = "weather_get" ∧ weatherLocationMissing mapped then
        .ok (st.setArtifact "ask_user_pending" (askUserPendingMarker step.id), 1)
      else
        match executeToolDispatch tools toolName mapped with
        | .error msg => .error msg
        | .ok result => .ok (st.setArtifact step.output_key result, 1)
  | .summarize =>
    match llm ("请总结以下内容：\n\n" ++ summaryTextOf interp) with
    | .error msg => .error msg
    | .ok content => .ok (st.setArtifact step.output_key (.v (.str (pyStripStr content))), 0)
  | .write_file =>
    match executeToolDispatch tools "fs_write" interp with
    | .error msg => .error msg
    | .ok result => .ok (st.setArtifact step.output_key result, 0)
  | .ask_user =>
    match executeToolDispatch tools "ask_user" interp with
    | .error msg => .error msg
    | .ok result => .ok (st.setArtifact step.output_key result, 0)
  | .web_search => .error "不支持的步骤类型: web_search"

/-- `if max_tool_calls is not None and tool_call_count >= max_tool_calls`. -/
def budgetReached : Option Nat → Nat → Bool
  | none, _ => false
  | some m, cnt => m ≤ cnt

/-- The step loop of `Executor.execute_plan` over the topologically sorted
steps: stop on exhausted budget, return immediately on a truthy
`ask_user_pending` artifact without completing the producing step, append
to `errors` on an exception and stop the loop when `step.retry == 0`. -/
def executePlanGo (tools : List MTool) (llm : String → Except String String)
    (maxToolCalls : Option Nat) :
    List PlanStep → ExecutionState → Nat → ExecutionState
  | [], st, _ => st
  | step :: rest, st, cnt =>
    if budgetReached maxToolCalls cnt then st
    else
      match execStep tools llm step st with
      | .ok (st', k) =>
        if truthy (st'.getArtifact "ask_user_pending") then st'
        else
          executePlanGo tools llm maxToolCalls rest
            { st' with completed_steps := st'.completed_steps ++ [step.id] } (cnt + k)
      | .error e =>
        let stErr : ExecutionState :=
          { st with errors := st.errors ++ ["步骤 " ++ step.id ++ " 执行失败: " ++ e] }
        if step.retry = 0 then stErr
        else executePlanGo tools llm maxToolCalls rest stErr cnt

/-- `Executor.execute_plan`. -/
def executePlan (tools : List MTool) (llm : String → Except String String)
    (plan : PlannerOutput) (userInputs : List (String × PyAny) := [])
    (maxToolCalls : Option Nat := none) : ExecutionState :=
  executePlanGo tools llm maxToolCalls (topologicalSort plan.steps)
    { inputs := userInputs } 0

/-! ## `src/orchestrator/orchestrator.py` — `_act_phase` -/

/-- `OrchestratorState` enum. -/
inductive OState where
  | plan
  | act
  | judge
  | askUser
  | done
  | failed
deriving DecidableEq, Repr

/-- The string items of a marker's `questions` entry. -/
def stringsOf : PyList → List String
  | .nil => []
  | .cons (.str s) rest => s :: stringsOf rest
  | .cons _ rest => stringsOf rest

/-- `ask_user_pending.get("questions", [])`. -/
def questionsOf : PyAny → List String
  | .v (.dict es) =>
    match es.lookup "questions" with
    | some (.list xs) => stringsOf xs
    | _ => []
  | _ => []

/-- Result of one ACT phase: the new execution state, the updated
`total_tool_calls`, the pending questions, and the next machine state. -/
structure ActPhaseResult where
  executionState : ExecutionState
  totalToolCalls : Nat
  pendingQuestions : List String
  next : OState
deriving DecidableEq

/-- `Orchestrator._act_phase`: run `execute_plan` with the per-ACT budget,
add `len(execution_state.completed_steps)` to `total_tool_calls`, and go
to ASK_USER on a truthy `ask_user_pending` artifact, else to JUDGE. -/
def actPhase (tools : List MTool) (llm : String → Except String String)
    (plan : PlannerOutput) (maxToolCallsPerAct : Nat) (totalToolCalls : Nat) :
    ActPhaseResult :=
  let st := executePlan tools llm plan [] (some maxToolCallsPerAct)
  let total := totalToolCalls + st.completed_steps.length
  match st.getArtifact "ask_user_pending" with
  | some marker =>
    if truthy (some marker) then ⟨st, total, questionsOf marker, .askUser⟩
    else ⟨st, total, [], .judge⟩
  | none => ⟨st, total, [], .judge⟩

/-! ## `src/orchestrator/orchestrator.py` — sessions, routing, resume -/

/-- `ActiveTask`. -/
structure ActiveTask where
  plan : Option PlannerOutput := none
  executionState : Option ExecutionState := none
  iterationCount : Nat := 0
  planIterations : Nat := 0
  totalToolCalls : Nat := 0
  createdAt : Nat := 0
  lastActivity : Nat := 0
deriving DecidableEq

/-- `ActiveTask.is_active`: a plan exists and the last activity is less
than one hour old. -/
def ActiveTask.isActive (t : ActiveTask) (now : Nat) : Bool :=
  t.plan.isSome && now - t.lastActivity < 3600

/-- `PendingAsk`. -/
structure PendingAsk where
  askId : String
  question : String
  expects : String
  ts : Nat := 0
deriving DecidableEq

/-- `SessionState`. -/
structure SessionState where
  activeTask : Option ActiveTask := none
  pendingAsk : Option PendingAsk := none
  sessionId : String := ""
  createdAt : Nat := 0
deriving DecidableEq

/-- `SessionState.end_task`. -/
def SessionState.endTask (s : SessionState) : SessionState :=
  { s with activeTask := none, pendingAsk := none }

/-- `Orchestrator._is_new_task_request`'s keyword list. -/
def newTaskKeywords : List String :=
  ["新的问题", "new question", "reset", "重来", "重新开始", "新任务", "new task",
   "clear", "清除"]

/-- `Orchestrator._is_new_task_request`: some keyword occurs in
`user_query.lower().strip()`. -/
def isNewTaskRequest (q : String) : Bool :=
  newTaskKeywords.any fun kw => pyContains (pyLowerStrip q) kw

/-- Whether the session's active task is live. -/
def taskActiveB (s : SessionState) (now : Nat) : Bool :=
  match s.activeTask with
  | some t => t.isActive now
  | none => false

/-- The handler `process_message` dispatches to. -/
inductive Route where
  | resumeWithAnswer
  | continueTask
  | startNewTask
deriving DecidableEq, Repr

/-- Outcome of `process_message` routing: the chosen handler, whether an
`ASK_USER_IGNORED` telemetry event was emitted, and the session as
mutated before the handler runs. -/
structure RoutedMessage where
  route : Route
  askUserIgnoredEmitted : Bool
  session : SessionState

/-- `Orchestrator.process_message` routing: a session with a PendingAsk
always resumes; otherwise a new-task keyword on a live task ends it (with
`ASK_USER_IGNORED` telemetry), and the message continues the live task or
starts a new one. -/
def processMessage (q : String) (s : SessionState) (now : Nat) : RoutedMessage :=
  if s.pendingAsk.isSome then
    ⟨.resumeWithAnswer, false, s⟩
  else
    let ignored := taskActiveB s now && isNewTaskRequest q
    let s1 := if ignored then s.endTask else s
    if taskActiveB s1 now then ⟨.continueTask, ignored, s1⟩
    else ⟨.startNewTask, ignored, s1⟩

/-- The answer slot chosen in `_resume_with_answer` from
`pending_ask.expects`. -/
def expectsOutputKey (expects : String) : String :=
  if pyContains (pyLowerStr expects) "city" then "user_city"
  else if pyContains (pyLowerStr expects) "date" then "user_date"
  else "user_answer"

/-- What `_resume_with_answer` does after storing the answer. -/
inductive ResumeOutcome where
  | startNewTask
  | forceReplan (task : ActiveTask)
deriving DecidableEq

/-- `Orchestrator._resume_with_answer`: on a session with a PendingAsk and
an ActiveTask, clear the PendingAsk, store the answer in the execution
state under the `expects`-derived key and force a replan; on the
degenerate path, clear the PendingAsk and start a new task. -/
def resumeWithAnswer (userAnswer : String) (s : SessionState) :
    SessionState × ResumeOutcome :=
  match s.pendingAsk, s.activeTask with
  | some pa, some task =>
    let es0 := match task.executionState with
      | some es => es
      | none => {}
    let es1 := es0.setArtifact (expectsOutputKey pa.expects) (.v (.str userAnswer))
    let task1 := { task with executionState := some es1 }
    ({ s with pendingAsk := none, activeTask := some task1 }, .forceReplan task1)
  | _, _ =>
    ({ s with pendingAsk := none }, .startNewTask)

/-- The arguments of the `orchestrate` call issued by `_force_replan`,
together with the state-machine state `orchestrate` starts in (the source
sets `current_state = OrchestratorState.PLAN` before its loop). -/
structure ForceReplanCall where
  query : String
  context : List (String × PyAny)
  entryState : OState

/-- `Orchestrator._force_replan` up to the `orchestrate` call: `none` is
the error result returned when the task has no execution state. -/
def forceReplan (task : ActiveTask) : Option ForceReplanCall :=
  match task.executionState with
  | none => none
  | some es =>
    let uc := es.getArtifact "user_city"
    let ud := es.getArtifact "user_date"
    let ua := es.getArtifact "user_answer"
    let ctx :=
      (if truthy uc then [("user_city", uc.getD (.v .pyNone))] else []) ++
      (if truthy ud then [("user_date", ud.getD (.v .pyNone))] else []) ++
      (if truthy ua then [("user_answer", ua.getD (.v .pyNone))] else [])
    let parts :=
      (if truthy uc then ["城市: " ++ pyStrAny (uc.getD (.v .pyNone))] else []) ++
      (if truthy ud then ["日期: " ++ pyStrAny (ud.getD (.v .pyNone))] else []) ++
      (if truthy ua then ["用户回答: " ++ pyStrAny (ua.getD (.v .pyNone))] else [])
    some { query := "继续执行任务。用户提供的信息: " ++ String.intercalate "; " parts,
           context := ctx,
           entryState := .plan }

/-! ## Helper lemmas on the artifact store -/

theorem assocGet_assocSet_self (l : List (String × PyAny)) (k : String) (v : PyAny) :
    assocGet (assocSet l k v) k = some v := by
  induction l with
  | nil => simp [assocSet, assocGet]
  | cons kv rest ih =>
    obtain ⟨k1, w⟩ := kv
    by_cases h : k1 = k
    · subst h; simp [assocSet, assocGet]
    · simp [assocSet, assocGet, h, ih]

theorem assocGet_assocSet_ne (l : List (String × PyAny)) (k k' : String) (v : PyAny)
    (h : k ≠ k') : assocGet (assocSet l k v) k' = assocGet l k' := by
  induction l with
  | nil => simp [assocSet, assocGet, h]
  | cons kv rest ih =>
    obtain ⟨k1, w⟩ := kv
    by_cases h1 : k1 = k
    · subst h1; simp [assocSet, assocGet, h]
    · by_cases h2 : k1 = k'
      · subst h2; simp [assocSet, assocGet, h1]
      · simp [assocSet, assocGet, h1, h2, ih]

theorem setArtifact_get_self (st : ExecutionState) (k : String) (v : PyAny) :
    (st.setArtifact k v).getArtifact k = some v :=
  assocGet_assocSet_self st.artifacts k v

theorem setArtifact_get_ne (st : ExecutionState) (k k' : String) (v : PyAny)
    (h : k ≠ k') : (st.setArtifact k v).getArtifact k' = st.getArtifact k' :=
  assocGet_assocSet_ne st.artifacts k k' v h

/-! ## Claim C7 — `StandardToolResult` constructibility -/

/-- A throwaway meta object for concrete results. -/
def metaEx : PyMeta := { source := "demo", latency_ms := 0, params := [] }

/-- A populated dict payload for the C7 counterexample. -/
def dataEx : PyValue := .dict (PyFields.ofList [("detail", .str "x")])

/-- Claim C7 is false as stated: `ok=true` with absent `data` is
constructible, and so is `ok=false` with populated (dict-typed, hence
validation-passing) `data`; construction ties `error` to `ok` but never
the presence of `data`. -/
theorem c7_counterexample :
    (mkStandardToolResult true none none metaEx =
      .ok { ok := true, data := none, error := none, meta := metaEx }) ∧
    (mkStandardToolResult false (some dataEx)
        (some { code := .INTERNAL, message := "m", retryable := true }) metaEx =
      .ok { ok := false, data := some dataEx,
            error := some { code := .INTERNAL, message := "m", retryable := true },
            meta := metaEx }) := by
  constructor <;> rfl

/-- Claim C7 (amended): every constructible `StandardToolResult` has
`error` absent when `ok` and `error` populated when not `ok`; `data` is
only type-checked — it must be absent or a dict — and its presence is
never tied to `ok`. -/
theorem c7_error_consistent_with_ok (ok : Bool) (data : Option PyValue)
    (error : Option ToolErr) (meta : PyMeta) (r : StandardToolResult)
    (h : mkStandardToolResult ok data error meta = .ok r) :
    r.ok = ok ∧ r.data = data ∧
      (r.data = none ∨ ∃ es, r.data = some (.dict es)) ∧
      (r.ok = true → r.error = none) ∧ (r.ok = false → r.error.isSome) := by
  unfold mkStandardToolResult at h
  split at h
  · exact Except.noConfusion h
  · rename_i hv0
    have hv : dataFieldValid data = true := by
      by_contra hc
      exact hv0 (by simpa using hc)
    split at h
    · exact Except.noConfusion h
    · split at h
      · exact Except.noConfusion h
      · rename_i h1 h2
        cases h
        refine ⟨rfl, rfl, ?_, ?_, ?_⟩
        · cases data with
          | none => exact Or.inl rfl
          | some v =>
            cases v with
            | dict es => exact Or.inr ⟨es, rfl⟩
            | str a => exact absurd hv (by simp [dataFieldValid])
            | int a => exact absurd hv (by simp [dataFieldValid])
            | bool a => exact absurd hv (by simp [dataFieldValid])
            | pyNone => exact absurd hv (by simp [dataFieldValid])
            | list a => exact absurd hv (by simp [dataFieldValid])
        · intro hok
          have hok' : ok = true := hok
          have hno : ¬ error.isSome = true := fun hs => h1 ⟨hok', hs⟩
          cases error with
          | none => rfl
          | some e => exact absurd rfl hno
        · intro hok
          have hok' : ok = false := hok
          have hno : ¬ error.isNone = true := fun hn => h2 ⟨by simp [hok'], hn⟩
          cases error with
          | none => exact absurd rfl hno
          | some e => rfl

/-- A dict payload as a successful tool would return it. -/
def dataOkEx : PyValue := .dict (PyFields.ofList [("current_time", .str "21:00")])

/-- Witness for C7: a concrete success envelope with a dict payload. -/
theorem c7_witness :
    let r : StandardToolResult :=
      { ok := true, data := some dataOkEx, error := none, meta := metaEx }
    r.ok = true ∧ r.data = some dataOkEx ∧
      (r.data = none ∨ ∃ es, r.data = some (.dict es)) ∧
      (r.ok = true → r.error = none) ∧ (r.ok = false → r.error.isSome) :=
  c7_error_consistent_with_ok true (some dataOkEx) none metaEx _ rfl

/-! ## Claim C9 — plan validation and the dependency invariant -/

/-- A two-step plan whose dependencies form a cycle. -/
def cyclicPlan : PlannerOutput :=
  { goal := "g", success_criteria := ["c"], max_steps := 2,
    steps := [
      { id := "a", type := .summarize, depends_on := ["b"], output_key := "oa" },
      { id := "b", type := .summarize, depends_on := ["a"], output_key := "ob" }],
    final_answer_template := "t" }

/-- Claim C9 is false as stated: `validate_steps` accepts a cyclic plan,
whose dependencies do not all point at earlier steps. -/
theorem c9_counterexample :
    planAccepted cyclicPlan = true ∧ depsEarlier cyclicPlan.steps = false := by
  decide

/-- Claim C9 (amended): plan validation guarantees only that every
`depends_on` entry is the id of some step of the plan (possibly the step
itself or a later one). -/
theorem c9_validation_checks_membership (p : PlannerOutput)
    (h : planAccepted p = true) :
    ∀ s ∈ p.steps, ∀ d ∈ s.depends_on, ∃ t ∈ p.steps, t.id = d := by
  have hv : validateSteps p.steps = true := by
    unfold planAccepted at h
    simp only [Bool.and_eq_true] at h
    exact h.2
  intro s hs d hd
  unfold validateSteps at hv
  rw [List.all_eq_true] at hv
  have h1 := hv s hs
  rw [List.all_eq_true] at h1
  have h2 := h1 d hd
  rw [List.any_eq_true] at h2
  obtain ⟨t, ht, heq⟩ := h2
  exact ⟨t, ht, by simpa using heq⟩

/-- A linear two-step plan accepted by validation. -/
def linearPlan : PlannerOutput :=
  { goal := "g", success_criteria := ["c"], max_steps := 2,
    steps := [
      { id := "s1", type := .summarize, depends_on := [], output_key := "o1" },
      { id := "s2", type := .summarize, depends_on := ["s1"], output_key := "o2" }],
    final_answer_template := "t" }

/-- Witness for C9: the accepted `linearPlan`, at its second step and its
dependency `"s1"`. -/
theorem c9_witness :
    ∃ t ∈ linearPlan.steps, t.id = "s1" :=
  c9_validation_checks_membership linearPlan (by decide)
    { id := "s2", type := .summarize, depends_on := ["s1"], output_key := "o2" }
    (by decide) "s1" (by decide)

/-! ## Claim C10 — `_topological_sort` returns a permutation -/

/-- Claim C10: for every finite step list, including cyclic or dangling
dependency structures, `_topological_sort` terminates (it is a total
function) and returns a permutation of its input: no step is dropped or
duplicated, and unresolvable steps are appended rather than discarded. -/
theorem c10_topological_sort_is_permutation (steps : List PlanStep) :
    (topologicalSort steps).Perm steps := by
  simpa using topoLoop_perm steps.length [] steps

/-! ## Claim C5 — the dispatcher's failure envelope -/

/-- A weather tool whose invocation exceeds the wall-clock timeout. -/
def timeoutWeatherTool : MTool := { name := "weather_get", run := fun _ => .timesOut }

/-- Claim C5 is false as stated: on timeout the effective dispatcher
returns the per-tool default plain dict, not a `StandardToolResult`
envelope (so no `ok=false`/`INTERNAL`/`retryable=true` envelope). -/
theorem c5_counterexample :
    executeToolDispatch [timeoutWeatherTool] "weather_get" [] =
      .ok (.v (.dict (PyFields.ofList
        [("error", .str "天气查询超时，无法获取天气信息")]))) ∧
    isToolResultEnvelope (getToolTimeoutDefault "weather_get") = false := by
  constructor <;> rfl

/-- Claim C5 (amended): a found tool's invocation never raises into the
Executor — a timeout or tool exception is replaced by the per-tool default
dict — but that default is a plain dict, not a ToolResult envelope, and
the raw return value is passed through unwrapped. -/
theorem c5_dispatch_timeout_returns_default_dict (tools : List MTool)
    (name : String) (args : List (String × PyValue)) (t : MTool)
    (hfind : tools.find? (fun t => t.name == name) = some t) :
    (∃ v, executeToolDispatch tools name args = .ok v) ∧
    (t.run args = .timesOut →
      executeToolDispatch tools name args = .ok (getToolTimeoutDefault name)) ∧
    (∀ msg, t.run args = .raises msg →
      executeToolDispatch tools name args = .ok (getToolTimeoutDefault name)) ∧
    isToolResultEnvelope (getToolTimeoutDefault name) = false := by
  refine ⟨?_, ?_, ?_, rfl⟩
  · cases hb : t.run args with
    | returns v => exact ⟨v, by simp [executeToolDispatch, hfind, hb]⟩
    | raises m =>
      exact ⟨getToolTimeoutDefault name, by simp [executeToolDispatch, hfind, hb]⟩
    | timesOut =>
      exact ⟨getToolTimeoutDefault name, by simp [executeToolDispatch, hfind, hb]⟩
  · intro h
    simp [executeToolDispatch, hfind, h]
  · intro msg h
    simp [executeToolDispatch, hfind, h]

/-- Witness for C5: the timing-out weather tool is found and its dispatch
returns the default dict. -/
theorem c5_witness :
    (∃ v, executeToolDispatch [timeoutWeatherTool] "weather_get"
      [("location", .str "Rotterdam")] = .ok v) ∧
    (timeoutWeatherTool.run [("location", .str "Rotterdam")] = .timesOut →
      executeToolDispatch [timeoutWeatherTool] "weather_get"
        [("location", .str "Rotterdam")] = .ok (getToolTimeoutDefault "weather_get")) ∧
    (∀ msg, timeoutWeatherTool.run [("location", .str "Rotterdam")] = .raises msg →
      executeToolDispatch [timeoutWeatherTool] "weather_get"
        [("location", .str "Rotterdam")] = .ok (getToolTimeoutDefault "weather_get")) ∧
    isToolResultEnvelope (getToolTimeoutDefault "weather_get") = false :=
  c5_dispatch_timeout_returns_default_dict [timeoutWeatherTool] "weather_get"
    [("location", .str "Rotterdam")] timeoutWeatherTool rfl

/-! ## Claim C6 — fs_write path rejection -/

theorem infix_dropWhile_of_no_sat {p : Char → Bool} {x : List Char}
    (hx : ∀ c ∈ x, p c = false) (hne : x ≠ []) :
    ∀ {l : List Char}, x <:+: l → x <:+: l.dropWhile p := by
  intro l
  induction l with
  | nil =>
    intro h
    exact absurd (by simpa using h) hne
  | cons a t ih =>
    intro h
    by_cases hpa : p a = true
    · rw [List.dropWhile_cons_of_pos hpa]
      rcases List.infix_cons_iff.mp h with hpre | hinf
      · obtain ⟨c, x', rfl⟩ := List.exists_cons_of_ne_nil hne
        obtain ⟨hca, -⟩ := List.cons_prefix_iff.mp hpre
        have hc := hx c (by simp)
        rw [hca, hpa] at hc
        cases hc
      · exact ih hinf
    · rw [List.dropWhile_cons_of_neg hpa]
      exact h

theorem infix_rdropWhile_of_no_sat {p : Char → Bool} {x : List Char}
    (hx : ∀ c ∈ x, p c = false) (hne : x ≠ []) {l : List Char}
    (h : x <:+: l) : x <:+: l.rdropWhile p := by
  have h1 : x.reverse <:+: l.reverse := h.reverse
  have h2 : x.reverse <:+: l.reverse.dropWhile p :=
    infix_dropWhile_of_no_sat (fun c hc => hx c (by simpa using hc))
      (by simpa using hne) h1
  have h3 : x <:+: (l.reverse.dropWhile p).reverse := by
    have := List.reverse_infix.mpr h2
    simpa using h2.reverse
  simpa [List.rdropWhile] using h3

theorem infix_pyStrip_of_no_ws {x : List Char}
    (hx : ∀ c ∈ x, isPySpace c = false) (hne : x ≠ []) {l : List Char}
    (h : x <:+: l) : x <:+: pyStrip l :=
  infix_rdropWhile_of_no_sat hx hne (infix_dropWhile_of_no_sat hx hne h)

/-- A path with a lowercase-invariant, whitespace-free fragment that no
special intent contains is not a special intent. -/
theorem isSpecialIntent_false_of_infix {path : String} {x : List Char}
    (hx : ∀ c ∈ x.map Char.toLower, isPySpace c = false)
    (hne : x ≠ []) (hinf : x <:+: path.data)
    (hnot : ∀ s ∈ specialIntents, ¬ (x.map Char.toLower <:+: s)) :
    isSpecialIntent path = false := by
  have h2 : x.map Char.toLower <:+: pyLower path.data := hinf.map Char.toLower
  have hne2 : x.map Char.toLower ≠ [] := by simpa using hne
  have h3 : x.map Char.toLower <:+: pyStrip (pyLower path.data) :=
    infix_pyStrip_of_no_ws hx hne2 h2
  cases hcon : isSpecialIntent path with
  | false => rfl
  | true =>
    exfalso
    have hmem : pyStrip (pyLower path.data) ∈ specialIntents := by
      unfold isSpecialIntent at hcon
      simpa using hcon
    exact hnot _ hmem h3

theorem isSpecialIntent_false_of_dotdot {path : String}
    (h : pyContains path ".." = true) : isSpecialIntent path = false := by
  have hinf : ['.', '.'] <:+: path.data := by
    have := of_decide_eq_true h
    simpa using this
  exact isSpecialIntent_false_of_infix (x := ['.', '.']) (by decide) (by decide)
    hinf (by decide)

theorem isSpecialIntent_false_of_absolute {path : String}
    (h : pyIsAbsolute path = true) : isSpecialIntent path = false := by
  have hinf : ['/'] <:+: path.data := by
    unfold pyIsAbsolute at h
    cases hd : path.data with
    | nil => rw [hd] at h; cases h
    | cons c t =>
      rw [hd] at h
      have hc : c = '/' := by simpa using h
      subst hc
      exact ⟨[], t, rfl⟩
  exact isSpecialIntent_false_of_infix (x := ['/']) (by decide) (by decide)
    hinf (by decide)

/-- Claim C6 is false as stated: at the literal S6 path `/etc/passwd` the
rejection envelope carries `INVALID_INPUT`, and the source `ErrorCode`
enum has no member rendering as `PERMISSION_DENIED` at all. -/
theorem c6_counterexample :
    fsWriteRun (fun _ => true) "/etc/passwd" "x" "md" false =
      .rejected (fsRejectEnvelope "不允许使用绝对路径" "/etc/passwd" "md" false) ∧
    (fsRejectEnvelope "不允许使用绝对路径" "/etc/passwd" "md" false).error.map
      ToolErr.code = some .INVALID_INPUT ∧
    (∀ c : ErrorCode, c.value ≠ "PERMISSION_DENIED") := by
  refine ⟨rfl, rfl, ?_⟩
  intro c
  cases c <;> decide

/-- Claim C6 (amended): every fs_write invocation whose path is absolute
or contains `..` is rejected without writing, with an `ok=false` envelope
whose code is `INVALID_INPUT` (not retryable); no `PERMISSION_DENIED`
code exists in the source enum. -/
theorem c6_fs_write_rejects_bad_paths (sandboxOk : String → Bool)
    (path content fmt : String) (mkdirs : Bool)
    (h : pyIsAbsolute path = true ∨ pyContains path ".." = true) :
    fsWriteRun sandboxOk path content fmt mkdirs =
      .rejected (fsRejectEnvelope
        (if pyIsAbsolute path then "不允许使用绝对路径" else "路径包含非法字符或尝试路径穿越")
        path fmt mkdirs) := by
  have hspec : isSpecialIntent path = false := by
    rcases h with h | h
    · exact isSpecialIntent_false_of_absolute h
    · exact isSpecialIntent_false_of_dotdot h
  unfold fsWriteRun normalizePath
  rw [hspec]
  by_cases habs : pyIsAbsolute path = true
  · simp [habs]
  · have hdd : pyContains path ".." = true := by
      rcases h with h | h
      · exact absurd h habs
      · exact h
    simp [habs, hdd]

/-- Witness for C6: the relative traversal path `../secrets.txt`. -/
theorem c6_witness :
    fsWriteRun (fun _ => true) "../secrets.txt" "data" "md" false =
      .rejected (fsRejectEnvelope
        (if pyIsAbsolute "../secrets.txt" then "不允许使用绝对路径"
         else "路径包含非法字符或尝试路径穿越")
        "../secrets.txt" "md" false) :=
  c6_fs_write_rejects_bad_paths (fun _ => true) "../secrets.txt" "data" "md" false
    (Or.inr (by decide))

/-! ## Claims C2, C3, C8 — the executor step loop -/

/-- Every successful `_execute_step` stores exactly one artifact and
touches nothing else of the state. -/
theorem execStep_shape {tools : List MTool} {llm : String → Except String String}
    {step : PlanStep} {st : ExecutionState} {p : ExecutionState × Nat}
    (h : execStep tools llm step st = .ok p) :
    ∃ key v, p.1 = st.setArtifact key v := by
  simp only [execStep] at h
  split at h
  · -- tool_call
    split at h
    · exact Except.noConfusion h
    · split at h
      · cases h
        exact ⟨_, _, rfl⟩
      · split at h
        · exact Except.noConfusion h
        · cases h
          exact ⟨_, _, rfl⟩
  · -- summarize
    split at h
    · exact Except.noConfusion h
    · cases h
      exact ⟨_, _, rfl⟩
  · -- write_file
    split at h
    · exact Except.noConfusion h
    · cases h
      exact ⟨_, _, rfl⟩
  · -- ask_user
    split at h
    · exact Except.noConfusion h
    · cases h
      exact ⟨_, _, rfl⟩
  · -- web_search
    exact Except.noConfusion h

theorem execStep_preserves_completed {tools : List MTool}
    {llm : String → Except String String} {step : PlanStep} {st : ExecutionState}
    {p : ExecutionState × Nat} (h : execStep tools llm step st = .ok p) :
    p.1.completed_steps = st.completed_steps := by
  obtain ⟨key, v, hkv⟩ := execStep_shape h
  rw [hkv]
  rfl

/-- Claim C3: once a step's execution leaves a truthy `ask_user_pending`
marker in the artifacts, the `execute_plan` loop returns that very state —
independently of whatever steps remain (none is executed) — and the
producing step is not added to `completed_steps`. -/
theorem c3_suspension_halts_execution (tools : List MTool)
    (llm : String → Except String String) (mtc : Option Nat) (step : PlanStep)
    (rest1 rest2 : List PlanStep) (st st' : ExecutionState) (cnt k : Nat)
    (hb : budgetReached mtc cnt = false)
    (hstep : execStep tools llm step st = .ok (st', k))
    (hmark : truthy (st'.getArtifact "ask_user_pending") = true) :
    executePlanGo tools llm mtc (step :: rest1) st cnt = st' ∧
    executePlanGo tools llm mtc (step :: rest2) st cnt = st' ∧
    st'.completed_steps = st.completed_steps := by
  have key : ∀ rest, executePlanGo tools llm mtc (step :: rest) st cnt = st' := by
    intro rest
    simp [executePlanGo, hb, hstep, hmark]
  exact ⟨key rest1, key rest2, execStep_preserves_completed hstep⟩

/-- The weather step of scenario S2: `weather_get` without a location. -/
def wStep : PlanStep :=
  { id := "w1", type := .tool_call, tool := some "weather_get", inputs := [],
    output_key := "weather", retry := 0 }

/-- An LLM oracle that always answers. -/
def llmOk : String → Except String String := fun _ => .ok "摘要完成"

/-- The suspended state produced by `wStep` from the fresh state. -/
def wSuspended : ExecutionState :=
  { artifacts := [("ask_user_pending", askUserPendingMarker "w1")] }

/-- Witness for C3: the location-less weather step suspends the loop at
once; a trailing summarize step is never executed. -/
theorem c3_witness :
    executePlanGo [] llmOk (some 3)
      [wStep, { id := "z9", type := .summarize, inputs := [], output_key := "s" }]
      {} 0 = wSuspended ∧
    executePlanGo [] llmOk (some 3) [wStep] {} 0 = wSuspended ∧
    wSuspended.completed_steps = ExecutionState.completed_steps {} :=
  c3_suspension_halts_execution [] llmOk (some 3) wStep
    [{ id := "z9", type := .summarize, inputs := [], output_key := "s" }] []
    {} wSuspended 0 1 rfl rfl rfl

/-- The loop only completes steps that are in its worklist. -/
theorem executePlanGo_completed_subset (tools : List MTool)
    (llm : String → Except String String) (mtc : Option Nat) :
    ∀ (steps : List PlanStep) (st : ExecutionState) (cnt : Nat) (sid : String),
      sid ∈ (executePlanGo tools llm mtc steps st cnt).completed_steps →
      sid ∈ st.completed_steps ∨ sid ∈ steps.map PlanStep.id := by
  intro steps
  induction steps with
  | nil =>
    intro st cnt sid h
    exact Or.inl (by simpa [executePlanGo] using h)
  | cons step rest ih =>
    intro st cnt sid h
    by_cases hb : budgetReached mtc cnt = true
    · simp [executePlanGo, hb] at h
      exact Or.inl h
    · have hb' : budgetReached mtc cnt = false := by simpa using hb
      cases hex : execStep tools llm step st with
      | error e =>
        simp only [executePlanGo, hb', Bool.false_eq_true, if_false, hex] at h
        by_cases hr : step.retry = 0
        · simp only [hr, if_true] at h
          exact Or.inl h
        · simp only [hr, if_false] at h
          rcases ih _ _ _ h with h1 | h1
          · exact Or.inl h1
          · exact Or.inr (by simp [h1])
      | ok p =>
        obtain ⟨st', k⟩ := p
        have hpres := execStep_preserves_completed hex
        simp only [executePlanGo, hb', Bool.false_eq_true, if_false, hex] at h
        by_cases hm : truthy (st'.getArtifact "ask_user_pending") = true
        · simp only [hm, if_true] at h
          exact Or.inl (hpres ▸ h)
        · simp only [hm, if_false] at h
          rcases ih _ _ _ h with h1 | h1
          · simp only [List.mem_append] at h1
            rcases h1 with h1 | h1
            · exact Or.inl (hpres ▸ h1)
            · simp only [List.mem_singleton] at h1
              exact Or.inr (by simp [h1])
          · exact Or.inr (by simp [h1])

/-- A single-step plan with no `tool_call` step at all. -/
def summarizeOnlyPlan : PlannerOutput :=
  { goal := "总结", success_criteria := ["有总结"], max_steps := 1,
    steps := [{ id := "s1", type := .summarize, inputs := [], output_key := "sum" }],
    final_answer_template := "\x7b\x7bsum\x7d\x7d" }

/-- Claim C2 is false as stated: an ACT phase over a plan with no
`tool_call` step (zero dispatches) still increments `total_tool_calls` by
1 — the phase adds `len(completed_steps)`, not the dispatch count — and
the executor's own per-ACT counter charges 1 for a `weather_get` step that
was converted to `ask_user_pending` without any dispatch. -/
theorem c2_counterexample :
    (summarizeOnlyPlan.steps.all fun s => decide (s.type ≠ .tool_call)) = true ∧
    (actPhase [] llmOk summarizeOnlyPlan 3 0).totalToolCalls = 1 ∧
    execStep [] llmOk wStep {} = .ok (wSuspended, 1) := by
  refine ⟨rfl, ?_, rfl⟩
  rfl

/-- Claim C2 (amended): each ACT phase increments `total_tool_calls` by
exactly the number of steps the executor completed in that phase — of any
type, so summarize/write_file/ask_user completions count one each — and
every completed step id names a step of the (sorted) plan; a suspended
weather→ask_user conversion is not completed, hence adds zero here. -/
theorem c2_total_tool_calls_counts_completed (tools : List MTool)
    (llm : String → Except String String) (plan : PlannerOutput) (m t : Nat) :
    (actPhase tools llm plan m t).totalToolCalls =
      t + (executePlan tools llm plan [] (some m)).completed_steps.length ∧
    ∀ sid ∈ (executePlan tools llm plan [] (some m)).completed_steps,
      sid ∈ (topologicalSort plan.steps).map PlanStep.id := by
  constructor
  · simp only [actPhase]
    split
    · split <;> rfl
    · rfl
  · intro sid h
    rcases executePlanGo_completed_subset tools llm (some m)
        (topologicalSort plan.steps) { inputs := [] } 0 sid h with h1 | h1
    · simp at h1
    · exact h1

/-- Witness for C2 (amended): the summarize-only plan completes one step,
and the counter rises by exactly that one. -/
theorem c2_witness :
    (actPhase [] llmOk summarizeOnlyPlan 3 4).totalToolCalls =
      4 + (executePlan [] llmOk summarizeOnlyPlan [] (some 3)).completed_steps.length ∧
    "s1" ∈ (topologicalSort summarizeOnlyPlan.steps).map PlanStep.id :=
  ⟨(c2_total_tool_calls_counts_completed [] llmOk summarizeOnlyPlan 3 4).1,
   (c2_total_tool_calls_counts_completed [] llmOk summarizeOnlyPlan 3 4).2 "s1"
     (by decide)⟩

/-- Claim C8 is false as stated: a plan whose first step fails with
`retry = 0` stops the whole loop — the independent second step is never
executed, so execution does not continue with other branches. -/
def failFirstPlan : PlannerOutput :=
  { goal := "g", success_criteria := ["c"], max_steps := 2,
    steps := [
      { id := "f1", type := .tool_call, tool := some "missing_tool", inputs := [],
        output_key := "o1", retry := 0 },
      { id := "s2", type := .summarize, inputs := [], output_key := "o2" }],
    final_answer_template := "t" }

/-- Claim C8 counterexample: after `f1` exhausts its (zero) retries the
loop breaks; `s2` has no dependencies yet is not executed and nothing is
completed. -/
theorem c8_counterexample :
    executePlan [] llmOk failFirstPlan [] (some 6) =
      { artifacts := [], inputs := [],
        errors := ["步骤 f1 执行失败: Tool \x27missing_tool\x27 error: 工具不存在"],
        completed_steps := [] } ∧
    (failFirstPlan.steps.all fun s => decide (s.depends_on = [])) = true := by
  constructor <;> rfl

/-- Claim C8 (amended): a failed `tool_call` step is attempted exactly
once — the failure is appended to `errors` and the step is never
re-executed; when `step.retry = 0` the loop stops, executing none of the
remaining steps (whatever they are), and when `step.retry ≥ 1` execution
continues with the subsequent steps (each still run at most once). -/
theorem c8_failed_step_not_retried (tools : List MTool)
    (llm : String → Except String String) (mtc : Option Nat) (step : PlanStep)
    (rest : List PlanStep) (st : ExecutionState) (cnt : Nat) (e : String)
    (hb : budgetReached mtc cnt = false)
    (hstep : execStep tools llm step st = .error e) :
    (step.retry = 0 → ∀ rest2, executePlanGo tools llm mtc (step :: rest2) st cnt =
      { st with errors := st.errors ++ ["步骤 " ++ step.id ++ " 执行失败: " ++ e] }) ∧
    (step.retry ≠ 0 → executePlanGo tools llm mtc (step :: rest) st cnt =
      executePlanGo tools llm mtc rest
        { st with errors := st.errors ++ ["步骤 " ++ step.id ++ " 执行失败: " ++ e] }
        cnt) := by
  constructor
  · intro hr rest2
    simp [executePlanGo, hb, hstep, hr]
  · intro hr
    simp [executePlanGo, hb, hstep, hr]

/-- Witness for C8: the failing `f1` step with `retry = 0` halts the loop
regardless of the rest; with `retry ≠ 0` the loop would move on. -/
theorem c8_witness :
    (executePlanGo [] llmOk (some 6)
      [{ id := "f1", type := .tool_call, tool := some "missing_tool", inputs := [],
         output_key := "o1", retry := 0 },
       { id := "s2", type := .summarize, inputs := [], output_key := "o2" }] {} 0 =
      { artifacts := [], inputs := [],
        errors := ["步骤 f1 执行失败: Tool \x27missing_tool\x27 error: 工具不存在"],
        completed_steps := [] }) :=
  (c8_failed_step_not_retried [] llmOk (some 6)
    { id := "f1", type := .tool_call, tool := some "missing_tool", inputs := [],
      output_key := "o1", retry := 0 }
    [] {} 0 "Tool \x27missing_tool\x27 error: 工具不存在" rfl rfl).1 rfl
    [{ id := "s2", type := .summarize, inputs := [], output_key := "o2" }]

/-! ## Claims C1, C4 — resume and session routing -/

theorem expectsOutputKey_ne_marker (e : String) :
    expectsOutputKey e ≠ "ask_user_pending" := by
  unfold expectsOutputKey
  split
  · decide
  · split
    · decide
    · decide

/-- The suspended S2 session: a PendingAsk expecting a city, an active
task whose execution state still carries the `ask_user_pending` marker. -/
def suspendedSession : SessionState :=
  { activeTask := some { executionState := some wSuspended },
    pendingAsk := some { askId := "ask-1", question := "请告诉我要查询天气的城市（例如：Rotterdam, NL）",
                         expects := "city" },
    sessionId := "sess-1" }

/-- The execution state after resuming `suspendedSession` with
"Rotterdam": the answer is stored, but the stale marker is still there. -/
def resumedEs : ExecutionState :=
  { artifacts := [("ask_user_pending", askUserPendingMarker "w1"),
                  ("user_city", .v (.str "Rotterdam"))] }

/-- Claim C1 is false as stated: `_resume_with_answer` stores the answer
and clears the session's PendingAsk, but the `ask_user_pending` marker is
left in the artifacts map (still truthy after the resume). -/
theorem c1_counterexample :
    ((resumeWithAnswer "Rotterdam" suspendedSession).1.activeTask.bind
      ActiveTask.executionState) = some resumedEs ∧
    truthy (resumedEs.getArtifact "ask_user_pending") = true ∧
    (resumeWithAnswer "Rotterdam" suspendedSession).1.pendingAsk = none := by
  refine ⟨rfl, rfl, rfl⟩

/-- The task as updated by a resume: the answer written into its
execution state. -/
def resumedTask (task : ActiveTask) (es1 : ExecutionState) : ActiveTask :=
  { task with executionState := some es1 }

/-- The session as updated by a resume: PendingAsk cleared, task swapped. -/
def resumedSession (s : SessionState) (task1 : ActiveTask) : SessionState :=
  { s with pendingAsk := none, activeTask := some task1 }

/-- Claim C1 (amended): on a session with a PendingAsk and an ActiveTask,
`_resume_with_answer` stores the answer under the `expects`-derived key
(`city → user_city`, `date → user_date`, else `user_answer`), clears the
PendingAsk from the session — the `ask_user_pending` artifact is NOT
removed — and hands the task to `_force_replan`, whose `orchestrate` call
enters the state machine at PLAN. -/
theorem c1_resume_stores_answer_and_replans (s : SessionState) (pa : PendingAsk)
    (task : ActiveTask) (es : ExecutionState) (ans : String)
    (hpa : s.pendingAsk = some pa) (htask : s.activeTask = some task)
    (hes : task.executionState = some es) :
    resumeWithAnswer ans s =
      (resumedSession s (resumedTask task
          (es.setArtifact (expectsOutputKey pa.expects) (.v (.str ans)))),
        .forceReplan (resumedTask task
          (es.setArtifact (expectsOutputKey pa.expects) (.v (.str ans))))) ∧
    (es.setArtifact (expectsOutputKey pa.expects) (.v (.str ans))).getArtifact
      (expectsOutputKey pa.expects) = some (.v (.str ans)) ∧
    (es.setArtifact (expectsOutputKey pa.expects) (.v (.str ans))).getArtifact
      "ask_user_pending" = es.getArtifact "ask_user_pending" ∧
    ∃ call, forceReplan (resumedTask task
        (es.setArtifact (expectsOutputKey pa.expects) (.v (.str ans)))) =
        some call ∧ call.entryState = OState.plan := by
  refine ⟨?_, setArtifact_get_self es _ _,
    setArtifact_get_ne es _ _ _ (expectsOutputKey_ne_marker pa.expects), ?_⟩
  · simp only [resumeWithAnswer, resumedSession, resumedTask, hpa, htask, hes]
  · exact ⟨_, rfl, rfl⟩

/-- The task record inside `suspendedSession`. -/
def suspendedTask : ActiveTask := { executionState := some wSuspended }

/-- Witness for C1 (amended): the suspended S2 session resumed with
"Rotterdam". -/
theorem c1_witness :
    resumeWithAnswer "Rotterdam" suspendedSession =
      (resumedSession suspendedSession (resumedTask suspendedTask
          (wSuspended.setArtifact (expectsOutputKey "city") (.v (.str "Rotterdam")))),
        .forceReplan (resumedTask suspendedTask
          (wSuspended.setArtifact (expectsOutputKey "city") (.v (.str "Rotterdam"))))) ∧
    (wSuspended.setArtifact (expectsOutputKey "city") (.v (.str "Rotterdam"))).getArtifact
      (expectsOutputKey "city") = some (.v (.str "Rotterdam")) ∧
    (wSuspended.setArtifact (expectsOutputKey "city") (.v (.str "Rotterdam"))).getArtifact
      "ask_user_pending" = wSuspended.getArtifact "ask_user_pending" ∧
    ∃ call, forceReplan (resumedTask suspendedTask
        (wSuspended.setArtifact (expectsOutputKey "city") (.v (.str "Rotterdam")))) =
        some call ∧ call.entryState = OState.plan :=
  c1_resume_stores_answer_and_replans suspendedSession
    { askId := "ask-1", question := "请告诉我要查询天气的城市（例如：Rotterdam, NL）",
      expects := "city" }
    suspendedTask wSuspended "Rotterdam" rfl rfl rfl

/-- Claim C4 is false on the code (`code_bug`): while a PendingAsk is
outstanding, `process_message` routes every message — new-task keywords
like "reset" included — to `_resume_with_answer`; the keyword branch with
its `ASK_USER_IGNORED` telemetry is only reachable when no PendingAsk
exists, so "reset" is swallowed as the answer instead of discarding the
PendingAsk and starting a fresh orchestration. -/
theorem c4_pending_ask_swallows_new_task_keywords :
    isNewTaskRequest "reset" = true ∧
    (processMessage "reset" suspendedSession 0).route = .resumeWithAnswer ∧
    (processMessage "reset" suspendedSession 0).askUserIgnoredEmitted = false ∧
    (processMessage "reset" suspendedSession 0).session.pendingAsk =
      suspendedSession.pendingAsk ∧
    (∀ (q : String) (now : Nat) (s : SessionState), s.pendingAsk.isSome = true →
      (processMessage q s now).route = .resumeWithAnswer) := by
  refine ⟨by decide, rfl, rfl, rfl, ?_⟩
  intro q now s h
  simp [processMessage, h]

end AgentFlow
